import Mathlib

/-!
Verification model of the tds1-iitm repository.

The repository is a retrieval-augmented QA service:
  src/scripts/process_data.py  - ingestion: load_documents_with_metadata
      normalizes discussion-post files (JSON Lines or a single JSON array)
      into Document values.
  src/main.py                  - FastAPI handler query_ta: engine readiness
      check, question validation, retrieval, link extraction.

This file gives a shallow embedding of the parts of those two files that the
claims concern, and settles each claim with a theorem.

Modelling conventions:
  - Python JSON values are the inductive type Json; Python None is Json.null.
  - json.loads is modelled by jsonLoads, a fuel-based recursive-descent
    parser over the character list of the input.  It covers objects, arrays,
    strings with the standard escapes, integers, booleans and null.  It does
    not model floating-point literals, the rejection of leading zeros, or
    surrogate-pair decoding; no theorem below depends on those corners.
  - str.strip is modelled by pyStrip (ASCII whitespace only), and
    str.splitlines by pySplitlines (handles LF, CRLF and lone CR).
  - llama_index Document construction with a non-string text raises a
    validation error; this is modelled as a record-level error.
  - The external embedding, LLM and vector-store capabilities are abstracted:
    the query engine of main.py is a function from the stripped question to
    either an error or an answer string plus retrieved node metadata.
-/

/-- JSON values, as produced by json.loads.  Python dicts keep the last
binding for a duplicated key; objects are ordered key/value lists and lookup
takes the last match. -/
inductive Json where
  | null
  | bool (b : Bool)
  | num (n : Int)
  | str (s : String)
  | arr (xs : List Json)
  | obj (kvs : List (String × Json))

/-- Whether a JSON value is a string. -/
def isStrJ : Json → Bool
  | Json.str _ => true
  | _ => false

/-- Whether a JSON value is a list. -/
def isArrJ : Json → Bool
  | Json.arr _ => true
  | _ => false

/-- JSON insignificant whitespace, as accepted by json.loads. -/
def skipWs : List Char → List Char
  | [] => []
  | c :: cs => if c = ' ' ∨ c = '\t' ∨ c = '\n' ∨ c = '\r' then skipWs cs else c :: cs

/-- Value of a hexadecimal digit. -/
def hexVal (c : Char) : Option Nat :=
  if c.isDigit then some (c.toNat - 48)
  else if 'a' ≤ c ∧ c ≤ 'f' then some (c.toNat - 87)
  else if 'A' ≤ c ∧ c ≤ 'F' then some (c.toNat - 55)
  else none

/-- Prepend a character to the string of a parse result. -/
def pushChar (c : Char) (r : Option (String × List Char)) : Option (String × List Char) :=
  r.map (fun p => (String.mk (c :: p.1.data), p.2))

/-- Parse the body of a JSON string literal (the opening quote already
consumed), returning the decoded string and the remaining input. -/
def parseStringF : Nat → List Char → Option (String × List Char)
  | 0, _ => none
  | fuel + 1, cs =>
    match cs with
    | [] => none
    | '"' :: rest => some ("", rest)
    | '\\' :: esc =>
      match esc with
      | '"' :: rest => pushChar '"' (parseStringF fuel rest)
      | '\\' :: rest => pushChar '\\' (parseStringF fuel rest)
      | '/' :: rest => pushChar '/' (parseStringF fuel rest)
      | 'n' :: rest => pushChar '\n' (parseStringF fuel rest)
      | 't' :: rest => pushChar '\t' (parseStringF fuel rest)
      | 'r' :: rest => pushChar '\r' (parseStringF fuel rest)
      | 'b' :: rest => pushChar '\x08' (parseStringF fuel rest)
      | 'f' :: rest => pushChar '\x0c' (parseStringF fuel rest)
      | 'u' :: h1 :: h2 :: h3 :: h4 :: rest =>
        match hexVal h1, hexVal h2, hexVal h3, hexVal h4 with
        | some a, some b, some c, some d =>
          pushChar (Char.ofNat (((a * 16 + b) * 16 + c) * 16 + d)) (parseStringF fuel rest)
        | _, _, _, _ => none
      | _ => none
    | c :: rest => if c.toNat < 32 then none else pushChar c (parseStringF fuel rest)

/-- Numeric value of a digit sequence. -/
def digitsToNat (ds : List Char) : Nat :=
  ds.foldl (fun a c => a * 10 + (c.toNat - 48)) 0

/-- Parse a JSON integer literal (optional leading minus). -/
def parseNumF (cs : List Char) : Option (Json × List Char) :=
  match cs with
  | '-' :: rest =>
    let ds := rest.takeWhile Char.isDigit
    if ds.isEmpty then none
    else some (Json.num (-(digitsToNat ds : Int)), rest.dropWhile Char.isDigit)
  | _ =>
    let ds := cs.takeWhile Char.isDigit
    if ds.isEmpty then none
    else some (Json.num (digitsToNat ds), cs.dropWhile Char.isDigit)

/-- Parser mode: a single value, the items of an array after the opening
bracket, or the members of an object after the opening brace. -/
inductive PMode where
  | val
  | arrItems (acc : List Json)
  | objItems (acc : List (String × Json))

/-- Fuel-based recursive-descent JSON parser. -/
def parseF : Nat → PMode → List Char → Option (Json × List Char)
  | 0, _, _ => none
  | fuel + 1, PMode.val, cs =>
    match skipWs cs with
    | 'n' :: 'u' :: 'l' :: 'l' :: rest => some (Json.null, rest)
    | 't' :: 'r' :: 'u' :: 'e' :: rest => some (Json.bool true, rest)
    | 'f' :: 'a' :: 'l' :: 's' :: 'e' :: rest => some (Json.bool false, rest)
    | '"' :: rest => (parseStringF (fuel + 1) rest).map (fun p => (Json.str p.1, p.2))
    | '[' :: rest =>
      match skipWs rest with
      | ']' :: rest2 => some (Json.arr [], rest2)
      | rest2 => parseF fuel (PMode.arrItems []) rest2
    | '{' :: rest =>
      match skipWs rest with
      | '}' :: rest2 => some (Json.obj [], rest2)
      | rest2 => parseF fuel (PMode.objItems []) rest2
    | other => parseNumF other
  | fuel + 1, PMode.arrItems acc, cs =>
    match parseF fuel PMode.val cs with
    | some (v, rest) =>
      match skipWs rest with
      | ',' :: rest2 => parseF fuel (PMode.arrItems (acc ++ [v])) rest2
      | ']' :: rest2 => some (Json.arr (acc ++ [v]), rest2)
      | _ => none
    | none => none
  | fuel + 1, PMode.objItems acc, cs =>
    match skipWs cs with
    | '"' :: rest =>
      match parseStringF (fuel + 1) rest with
      | some (k, rest2) =>
        match skipWs rest2 with
        | ':' :: rest3 =>
          match parseF fuel PMode.val rest3 with
          | some (v, rest4) =>
            match skipWs rest4 with
            | ',' :: rest5 => parseF fuel (PMode.objItems (acc ++ [(k, v)])) rest5
            | '}' :: rest5 => some (Json.obj (acc ++ [(k, v)]), rest5)
            | _ => none
          | none => none
        | _ => none
      | none => none
    | _ => none

/-- Model of json.loads: parse one JSON document and require that only
whitespace follows it; any failure is a JSONDecodeError, modelled as none. -/
def jsonLoads (s : String) : Option Json :=
  match parseF (2 * s.length + 8) PMode.val s.data with
  | some (v, rest) => if (skipWs rest).isEmpty then some v else none
  | none => none

/-- Characters stripped by Python str.strip (ASCII whitespace). -/
def pyIsSpace (c : Char) : Bool :=
  c = ' ' ∨ c = '\t' ∨ c = '\n' ∨ c = '\r' ∨ c = '\x0b' ∨ c = '\x0c'

/-- Model of Python str.strip with no argument. -/
def pyStrip (s : String) : String :=
  String.mk (((s.data.dropWhile pyIsSpace).reverse.dropWhile pyIsSpace).reverse)

/-- Helper for pySplitlines: split on LF, CRLF or lone CR, accumulating the
current line in reverse. -/
def splitLinesAux : List Char → List Char → List (List Char)
  | [], acc => if acc.isEmpty then [] else [acc.reverse]
  | '\r' :: '\n' :: cs, acc => acc.reverse :: splitLinesAux cs []
  | '\n' :: cs, acc => acc.reverse :: splitLinesAux cs []
  | '\r' :: cs, acc => acc.reverse :: splitLinesAux cs []
  | c :: cs, acc => splitLinesAux cs (c :: acc)

/-- Model of Python str.splitlines: no trailing empty line for a trailing
line break, and an empty list for the empty string. -/
def pySplitlines (s : String) : List String :=
  (splitLinesAux s.data []).map String.mk

/-- Last-wins association lookup, the semantics of Python dict access for an
object built by json.loads (later duplicate keys overwrite earlier ones). -/
def jLookup (kvs : List (String × Json)) (k : String) : Option Json :=
  kvs.foldl (fun acc p => if p.1 = k then some p.2 else acc) none

/-- Python data.get(k): None (Json.null) when the key is absent. -/
def jGet (kvs : List (String × Json)) (k : String) : Json :=
  (jLookup kvs k).getD Json.null

/-- Python data.get(k, d): the default only when the key is absent; a key
present with value null yields null, not the default. -/
def jGetD (kvs : List (String × Json)) (k : String) (d : Json) : Json :=
  (jLookup kvs k).getD d

/-- Python truthiness of a JSON value. -/
def pyTruthy : Json → Bool
  | Json.null => false
  | Json.bool b => b
  | Json.num n => n != 0
  | Json.str s => s != ""
  | Json.arr xs => !xs.isEmpty
  | Json.obj kvs => !kvs.isEmpty

/-- All elements of a JSON list as strings, or none if some element is not a
string (in which case Python str.join raises TypeError). -/
def allStrings : List Json → Option (List String)
  | [] => some []
  | Json.str s :: rest => (allStrings rest).map (fun ss => s :: ss)
  | _ :: _ => none

/-- Join strings with a separator, the semantics of sep.join(list). -/
def joinSep (sep : String) : List String → String
  | [] => ""
  | [s] => s
  | s :: rest => s ++ sep ++ joinSep sep rest

/-- process_data.py lines 85 and 126: the tags normalization expression.
A list joins with comma-space (TypeError if an element is not a string),
None (absent key or null value) becomes the empty string, and anything else
passes through unchanged. -/
def processTags (tagsValue : Json) : Except String Json :=
  match tagsValue with
  | Json.arr xs =>
    match allStrings xs with
    | some ss => Except.ok (Json.str (joinSep ", " ss))
    | none => Except.error "TypeError: join expects str instances"
  | Json.null => Except.ok (Json.str "")
  | v => Except.ok v

/-- process_data.py lines 90 and 131: the Document text expression
data.get(content) or data.get(cooked, empty). -/
def resolveText (kvs : List (String × Json)) : Json :=
  if pyTruthy (jGet kvs "content") then jGet kvs "content"
  else jGetD kvs "cooked" (Json.str "")

/-- A normalized Document: text plus the fixed metadata mapping built at
process_data.py lines 89-101 / 130-142. -/
structure Doc where
  text : String
  metadata : List (String × Json)

/-- process_data.py lines 91-100 / 132-141: the metadata dict literal. -/
def buildMetadata (kvs : List (String × Json)) (processedTags : Json) :
    List (String × Json) :=
  [("url", jGetD kvs "url" (Json.str "")),
   ("topic_title", jGetD kvs "topic_title" (Json.str "")),
   ("post_id", jGetD kvs "post_id" (Json.str "")),
   ("post_number", jGetD kvs "post_number" (Json.str "")),
   ("author", jGetD kvs "author" (Json.str "")),
   ("created_at", jGetD kvs "created_at" (Json.str "")),
   ("source_type", Json.str "discourse_post"),
   ("tags", processedTags)]

/-- Outcome of processing one successfully parsed record: a Document to
append, a skip of an empty-text record (warning logged), or a record-level
exception (AttributeError on a non-dict record, TypeError from the tags
join, or a validation error for a non-string text). -/
inductive RecResult where
  | doc (d : Doc)
  | emptySkip
  | recError (msg : String)

/-- The Document carried by a record outcome, when there is one. -/
def RecResult.doc? : RecResult → Option Doc
  | RecResult.doc d => some d
  | _ => none

/-- process_data.py lines 81-105 / 122-146 for a single parsed record:
normalize tags, build the Document, and keep it only when the stripped text
is non-empty. -/
def buildDoc (data : Json) : RecResult :=
  match data with
  | Json.obj kvs =>
    match processTags (jGet kvs "tags") with
    | Except.error e => RecResult.recError e
    | Except.ok processedTags =>
      match resolveText kvs with
      | Json.str s =>
        if pyStrip s = "" then RecResult.emptySkip
        else RecResult.doc (Doc.mk s (buildMetadata kvs processedTags))
      | _ => RecResult.recError "ValidationError: text must be a string"
  | _ => RecResult.recError "AttributeError: get on a non-dict record"

/-- State threaded through the per-file loops: Documents collected so far,
diagnostic log lines, and the JSONL sniffing variables lines_processed and
is_jsonl of process_data.py lines 71-72. -/
structure LoopSt where
  docs : List Doc
  logs : List String
  linesProcessed : Nat
  isJsonl : Bool

/-- How the JSON-Lines loop of process_data.py lines 73-114 ends: the loop
ran to completion, broke out to try the array fallback (line 110), or
re-raised a JSONDecodeError (line 112) that the file-level handler catches. -/
inductive JLOut where
  | done (st : LoopSt)
  | toArray (st : LoopSt)
  | aborted (st : LoopSt)

/-- The state carried by a loop outcome. -/
def JLOut.state : JLOut → LoopSt
  | JLOut.done st => st
  | JLOut.toArray st => st
  | JLOut.aborted st => st

/-- process_data.py lines 73-114: iterate over the lines of the file,
skipping blank lines; a parse failure on the very first line breaks out to
the array fallback, a parse failure anywhere else re-raises; a record-level
error on a parsed line is logged and the loop continues. -/
def jsonlLoop : List String → Nat → LoopSt → JLOut
  | [], _, st => JLOut.done st
  | line :: rest, lineNum, st =>
    if pyStrip line = "" then
      jsonlLoop rest (lineNum + 1) st
    else
      match jsonLoads line with
      | none =>
        if st.linesProcessed = 0 ∧ lineNum = 0 then
          JLOut.toArray { st with isJsonl := false }
        else
          JLOut.aborted st
      | some data =>
        let st2 := { st with isJsonl := true, linesProcessed := st.linesProcessed + 1 }
        match buildDoc data with
        | RecResult.doc d =>
          jsonlLoop rest (lineNum + 1) { st2 with docs := st2.docs ++ [d] }
        | RecResult.emptySkip =>
          jsonlLoop rest (lineNum + 1) { st2 with logs := st2.logs ++ ["warning: empty text content, skipping"] }
        | RecResult.recError e =>
          jsonlLoop rest (lineNum + 1) { st2 with logs := st2.logs ++ ["error processing post: " ++ e] }

/-- process_data.py lines 121-146: the items loop of the array fallback.
There is no per-item handler here, so a record-level error aborts the
remaining items (the file-level except catches it); empty-text items are
skipped with a warning and the loop continues. -/
def arrayLoop : List Json → LoopSt → LoopSt
  | [], st => st
  | item :: rest, st =>
    match buildDoc item with
    | RecResult.doc d => arrayLoop rest { st with docs := st.docs ++ [d] }
    | RecResult.emptySkip =>
      arrayLoop rest { st with logs := st.logs ++ ["warning: empty text content, skipping"] }
    | RecResult.recError e =>
      { st with logs := st.logs ++ ["error processing file: " ++ e] }

/-- process_data.py lines 117-149: parse the whole file content as JSON; a
non-list top-level value is skipped with an error, a parse failure is the
file-level JSONDecodeError. -/
def arrayBranch (content : String) (st : LoopSt) : LoopSt :=
  match jsonLoads content with
  | none => { st with logs := st.logs ++ ["error parsing file as JSON or JSON Lines"] }
  | some (Json.arr items) => arrayLoop items st
  | some _ => { st with logs := st.logs ++ ["error: file is a single JSON object but not an array, skipping"] }

/-- process_data.py lines 69-154 for one discussion-post file whose content
has already been read and decoded (the open and f.read of lines 67-68 run
before the try at line 69 and are modelled by FileRead in the outer loop):
run the JSON-Lines loop, then the array fallback when is_jsonl stayed
false; a re-raised JSONDecodeError is caught by the file-level handler,
keeping the Documents already collected. -/
def processDiscourseFile (content : String) : LoopSt :=
  match jsonlLoop (pySplitlines content) 0 (LoopSt.mk [] [] 0 false) with
  | JLOut.done st => if st.isJsonl then st else arrayBranch content st
  | JLOut.toArray st => arrayBranch content st
  | JLOut.aborted st => { st with logs := st.logs ++ ["error parsing file as JSON or JSON Lines"] }

/-- Whether a loop outcome leads to the array fallback (the condition
if not is_jsonl at process_data.py line 117, with a re-raised error
bypassing it). -/
def fallbackOf : JLOut → Bool
  | JLOut.done st => !st.isJsonl
  | JLOut.toArray _ => true
  | JLOut.aborted _ => false

/-- Whether processing a given file content reaches the single-JSON-array
fallback of process_data.py lines 117-119. -/
def triesArrayFallback (content : String) : Bool :=
  fallbackOf (jsonlLoop (pySplitlines content) 0 (LoopSt.mk [] [] 0 false))

/-- The outcome of reading one discussion-post file, process_data.py lines
67-68: open(filepath) followed by f.read().  Both calls precede the try
that begins at line 69, so a failure here (UnicodeDecodeError from f.read
on bytes that are not valid UTF-8, IsADirectoryError from open) is caught
by no handler in load_documents_with_metadata and propagates to the
caller. -/
inductive FileRead where
  | ok (content : String)
  | readError (msg : String)

/-- The outer loop over discussion-post files, process_data.py lines
64-154.  The body from line 69 on sits inside a per-file try, so once the
content of a file has been read its failures stay confined to that file and
the Documents of all files are concatenated in order; but the read itself
(lines 67-68) is outside that try, so a read or decode failure propagates
uncaught and aborts the whole run: the function raises instead of
returning, and even the Documents accumulated from earlier files are
lost to the caller. -/
def loadDiscourseFiles : List FileRead → List Doc → Except String (List Doc)
  | [], acc => Except.ok acc
  | FileRead.readError e :: _, _ => Except.error e
  | FileRead.ok content :: rest, acc =>
    loadDiscourseFiles rest (acc ++ (processDiscourseFile content).docs)

/-- The amended fallback condition, written from the amended claim for
comparison with triesArrayFallback: the array fallback is reached exactly
when the file has no non-blank line at all, or its very first line is
non-blank and fails to parse as JSON. -/
def specFallback (content : String) : Bool :=
  ((pySplitlines content).all fun l => pyStrip l == "") ||
  (match pySplitlines content with
   | l0 :: _ => (pyStrip l0 != "") && (jsonLoads l0).isNone
   | [] => false)

/-- Metadata of a retrieved node as seen by main.py: the vector store holds
scalar metadata values, read back as strings.  Lookup is last-wins, matching
Python dict semantics. -/
abbrev NodeMeta := List (String × String)

/-- Python metadata.get(k) on a node metadata dict. -/
def sLookup (md : NodeMeta) (k : String) : Option String :=
  md.foldl (fun acc p => if p.1 = k then some p.2 else acc) none

/-- Python a or b for an optional string a: b when a is None or empty. -/
def pyOrS (a : Option String) (b : String) : String :=
  match a with
  | some s => if s = "" then b else s
  | none => b

/-- main.py line 161: the display-title expression
title or topic_title or text or url or the no-title literal, chained with
Python truthiness. -/
def nodeTitle (md : NodeMeta) : String :=
  pyOrS (sLookup md "title")
    (pyOrS (sLookup md "topic_title")
      (pyOrS (sLookup md "text")
        (pyOrS (sLookup md "url") "No Title Available")))

/-- A source link of the response model (main.py SourceLink). -/
structure SourceLink where
  url : String
  title : String

/-- The link contributed by one node: present exactly when the url metadata
is truthy (main.py line 163). -/
def nodeLink (md : NodeMeta) : Option SourceLink :=
  match sLookup md "url" with
  | some u => if u = "" then none else some (SourceLink.mk u (nodeTitle md))
  | none => none

/-- main.py lines 155-164: the links accumulation loop over source nodes. -/
def extractLinksAux : List NodeMeta → List SourceLink → List SourceLink
  | [], links => links
  | md :: rest, links =>
    match sLookup md "url" with
    | some u =>
      if u = "" then extractLinksAux rest links
      else extractLinksAux rest (links ++ [SourceLink.mk u (nodeTitle md)])
    | none => extractLinksAux rest links

/-- The links list built by the POST handler from the retrieved nodes. -/
def extractLinks (nodes : List NodeMeta) : List SourceLink :=
  extractLinksAux nodes []

/-- Outcome of the POST handler: an HTTPException with a status code and
detail, or a success response with answer text and links. -/
inductive TAResponse where
  | err (status : Nat) (detail : String)
  | ok (answer : String) (links : List SourceLink)

/-- The query engine abstracted: from the stripped question to either a
raised exception (message) or the answer text plus retrieved node
metadata. -/
abbrev QueryFn := String → Except String (String × List NodeMeta)

/-- main.py lines 138-170, the POST handler query_ta: engine readiness check
(503), question strip and emptiness check (400), then retrieval plus
synthesis with the per-request handler turning an exception into a 500. -/
def query_ta (engine : Option QueryFn) (question : String) : TAResponse :=
  match engine with
  | none => TAResponse.err 503 "Virtual TA engine not initialized. Please try again later."
  | some qf =>
    let q := pyStrip question
    if q = "" then TAResponse.err 400 "Question cannot be empty."
    else
      match qf q with
      | Except.error e =>
        TAResponse.err 500 ("An error occurred while processing your question: " ++ e)
      | Except.ok (answer, sourceNodes) => TAResponse.ok answer (extractLinks sourceNodes)

/-- The title chain exactly as the claim words it, by key presence: the
title value when the key is present (even when empty), else topic_title,
else text, else the url, else the no-title literal.  Written from the
claim for comparison with nodeTitle, which is the code. -/
def specTitlePresence (md : NodeMeta) : String :=
  match sLookup md "title" with
  | some t => t
  | none =>
    match sLookup md "topic_title" with
    | some t => t
    | none =>
      match sLookup md "text" with
      | some t => t
      | none =>
        match sLookup md "url" with
        | some u => u
        | none => "No Title Available"

/-- A metadata value that is present and non-empty. -/
def truthyGet (md : NodeMeta) (k : String) : Option String :=
  match sLookup md k with
  | some t => if t = "" then none else some t
  | none => none

/-- The amended title chain: priority by present-and-non-empty values.
Written in the shape of the amended claim for comparison with nodeTitle. -/
def specTitleNonempty (md : NodeMeta) : String :=
  match truthyGet md "title" with
  | some t => t
  | none =>
    match truthyGet md "topic_title" with
    | some t => t
    | none =>
      match truthyGet md "text" with
      | some t => t
      | none =>
        match truthyGet md "url" with
        | some u => u
        | none => "No Title Available"

/-! ## Helper lemmas -/

theorem extractLinksAux_eq (nodes : List NodeMeta) :
    ∀ links, extractLinksAux nodes links = links ++ nodes.filterMap nodeLink := by
  induction nodes with
  | nil => intro links; simp [extractLinksAux]
  | cons md rest ih =>
    intro links
    simp only [extractLinksAux, List.filterMap_cons, nodeLink]
    cases h : sLookup md "url" with
    | none => simp [ih]
    | some u =>
      by_cases hu : u = ""
      · simp [hu, ih]
      · simp [hu, ih]

theorem loadOkAux (contents : List String) :
    ∀ acc, loadDiscourseFiles (contents.map FileRead.ok) acc
      = Except.ok (acc ++ (contents.map (fun c => (processDiscourseFile c).docs)).flatten) := by
  induction contents with
  | nil => intro acc; simp [loadDiscourseFiles]
  | cons c rest ih => intro acc; simp [loadDiscourseFiles, ih]

theorem loadAbortAux (pre : List String) :
    ∀ (e : String) (post : List FileRead) (acc : List Doc),
      loadDiscourseFiles (pre.map FileRead.ok ++ FileRead.readError e :: post) acc
        = Except.error e := by
  induction pre with
  | nil => intro e post acc; simp [loadDiscourseFiles]
  | cons c rest ih => intro e post acc; simp [loadDiscourseFiles, ih]

/-! ## Claims about the POST handler (main.py) -/

/-- C1 (amended): the links list returned by the POST handler contains one
entry per retrieved segment whose url metadata is present and non-empty, in
retrieval order, each entry carrying the resolved display title; URLs are
not de-duplicated, so segments sharing a URL each contribute an entry. -/
theorem links_one_per_url_segment (nodes : List NodeMeta) :
    extractLinks nodes = nodes.filterMap nodeLink := by
  simpa [extractLinks] using extractLinksAux_eq nodes []

/-- C1 (counterexample): two retrieved segments sharing the URL http://a
produce two link entries, not one, so the links list is not de-duplicated
by URL. -/
theorem dup_url_two_links :
    query_ta (some (fun _ => Except.ok ("ans",
        [[("url", "http://a"), ("title", "T1")], [("url", "http://a"), ("title", "T2")]]))) "q"
      = TAResponse.ok "ans" [SourceLink.mk "http://a" "T1", SourceLink.mk "http://a" "T2"] ∧
    (extractLinks [[("url", "http://a"), ("title", "T1")], [("url", "http://a"), ("title", "T2")]]).length = 2 :=
  ⟨rfl, rfl⟩

/-- C2 (amended): during ingestion, a record-level error on a successfully
parsed JSONL line (for example a non-object record) is logged and the loop
continues with the remaining lines; and once the content of a file has been
read and decoded, failures are confined to that file: a run over files that
all read successfully returns the concatenation of the Documents of each
file on its own.  But the claim fails beyond that: the read step of lines
67-68 precedes the per-file try, so a file whose bytes cannot be decoded
raises an uncaught error that aborts the entire ingestion run, and a line
after the first that fails to parse as JSON aborts the remaining records of
its own file, as does a record-level error among the items of an
array-format file; see the counterexample. -/
theorem file_isolation_and_record_skip :
    (∀ (contents : List String) (acc : List Doc),
      loadDiscourseFiles (contents.map FileRead.ok) acc
        = Except.ok (acc ++ (contents.map (fun c => (processDiscourseFile c).docs)).flatten)) ∧
    (∀ (pre : List String) (e : String) (post : List FileRead) (acc : List Doc),
      loadDiscourseFiles (pre.map FileRead.ok ++ FileRead.readError e :: post) acc
        = Except.error e) ∧
    (∀ (line : String) (rest : List String) (n : Nat) (st : LoopSt) (data : Json) (e : String),
      pyStrip line ≠ "" → jsonLoads line = some data → buildDoc data = RecResult.recError e →
      jsonlLoop (line :: rest) n st = jsonlLoop rest (n + 1)
        { st with isJsonl := true, linesProcessed := st.linesProcessed + 1,
                  logs := st.logs ++ ["error processing post: " ++ e] }) := by
  refine ⟨?_, ?_, ?_⟩
  · intro contents acc
    exact loadOkAux contents acc
  · intro pre e post acc
    exact loadAbortAux pre e post acc
  · intro line rest n st data e h1 h2 h3
    simp [jsonlLoop, h1, h2, h3]

/-- C2 (witness): a line holding the JSON number 5 parses but is not an
object, so its record-level error is logged and the loop moves on to the
remaining lines with the state updated. -/
theorem file_isolation_and_record_skip_witness :
    jsonlLoop ["5"] 0 (LoopSt.mk [] [] 0 false) = jsonlLoop [] 1
      (LoopSt.mk [] ["error processing post: AttributeError: get on a non-dict record"] 1 true) :=
  file_isolation_and_record_skip.2.2 "5" [] 0 (LoopSt.mk [] [] 0 false)
    (Json.num 5) "AttributeError: get on a non-dict record" (by decide) rfl rfl

/-- C2 (counterexample): two refutations of the original claim.  First, in
a JSONL file whose second line is not valid JSON, the well-formed third
record is never processed: only the Document of the first record is
produced, so a malformed individual record does not merely skip itself, it
aborts the remaining records of its file.  Second, a file whose read fails
(lines 67-68 run before the per-file try, so a UnicodeDecodeError escapes
every handler) aborts the whole run: the later, perfectly valid file is
never processed and no Document list is returned at all. -/
theorem midfile_parse_error_aborts_rest :
    (processDiscourseFile "\x7b\"content\": \"a\"\x7d\nnotjson\n\x7b\"content\": \"b\"\x7d").docs.map Doc.text
      = ["a"] ∧
    jsonLoads "\x7b\"content\": \"b\"\x7d" = some (Json.obj [("content", Json.str "b")]) ∧
    (buildDoc (Json.obj [("content", Json.str "b")])).doc?.map Doc.text = some "b" ∧
    loadDiscourseFiles
        [FileRead.readError "UnicodeDecodeError", FileRead.ok "\x7b\"content\": \"c\"\x7d"] []
      = Except.error "UnicodeDecodeError" := by
  exact ⟨rfl, rfl, rfl, rfl⟩

/-- C8: with the engine initialized, a question that is empty or
whitespace-only after stripping is answered with the 400 client error, and
neither retrieval nor synthesis is invoked: the result is the same for
every query function, which the universal quantification over the engine
expresses. -/
theorem empty_question_400 (qf : QueryFn) (q : String) (h : pyStrip q = "") :
    query_ta (some qf) q = TAResponse.err 400 "Question cannot be empty." := by
  simp [query_ta, h]

/-- C8 (witness): a whitespace-only question against an engine whose query
function would raise is still answered with the 400 error. -/
theorem empty_question_400_witness :
    query_ta (some (fun _ => Except.error "down")) "   "
      = TAResponse.err 400 "Question cannot be empty." :=
  empty_question_400 (fun _ => Except.error "down") "   " rfl

/-- C9: while the global query engine is still unset, every POST request is
answered with the 503 service-unavailable error, never a crash and never an
empty success response. -/
theorem engine_unset_503 (q : String) :
    query_ta none q
      = TAResponse.err 503 "Virtual TA engine not initialized. Please try again later." := rfl

/-- C10: the readiness check precedes question validation: an empty or
whitespace-only question arriving while the engine is unset gets the 503
not-ready error, not the 400 empty-question error. -/
theorem readiness_before_validation (q : String) (_h : pyStrip q = "") :
    query_ta none q
      = TAResponse.err 503 "Virtual TA engine not initialized. Please try again later." ∧
    ∀ d, query_ta none q ≠ TAResponse.err 400 d := by
  refine ⟨rfl, ?_⟩
  intro d hEq
  simp [query_ta] at hEq

/-- C10 (witness): the whitespace-only question gets the 503 error and not
the 400 error while the engine is unset. -/
theorem readiness_before_validation_witness :
    query_ta none "   "
      = TAResponse.err 503 "Virtual TA engine not initialized. Please try again later." ∧
    query_ta none "   " ≠ TAResponse.err 400 "Question cannot be empty." :=
  ⟨(readiness_before_validation "   " rfl).1,
   (readiness_before_validation "   " rfl).2 "Question cannot be empty."⟩

/-! ## Claims about the normalizer (process_data.py) -/

/-- C4: the resolved Document text (the expression
data.get(content) or data.get(cooked, empty)) equals the content field when
that field is a present, non-empty string, and otherwise (content absent,
empty or null) equals the cooked field, with the empty string when cooked
is also absent. -/
theorem content_priority (kvs : List (String × Json)) :
    (∀ s, jLookup kvs "content" = some (Json.str s) → s ≠ "" →
      resolveText kvs = Json.str s) ∧
    ((jLookup kvs "content" = none ∨ jLookup kvs "content" = some (Json.str "") ∨
        jLookup kvs "content" = some Json.null) →
      resolveText kvs = (jLookup kvs "cooked").getD (Json.str "")) := by
  constructor
  · intro s hc hs
    simp [resolveText, jGet, hc, pyTruthy, hs]
  · intro h
    rcases h with h | h | h <;> simp [resolveText, jGet, jGetD, h, pyTruthy]

/-- C4 (witness): a record with content equal to hello resolves its text to
hello. -/
theorem content_priority_witness :
    resolveText [("content", Json.str "hello"), ("cooked", Json.str "c")] = Json.str "hello" :=
  (content_priority [("content", Json.str "hello"), ("cooked", Json.str "c")]).1
    "hello" rfl (by decide)

/-- C5 (amended): the normalized tags metadata value is never a JSON list:
a list of strings joins to a single comma-space separated string, a string
scalar passes through unchanged, and an absent or null tags field becomes
the empty string; but a non-string, non-list scalar (for example a number)
also passes through unchanged, so the value is not always a string, and a
list containing a non-string raises a record-level error instead of
producing a value. -/
theorem tags_normalization (v : Json) :
    (∀ xs ss, v = Json.arr xs → allStrings xs = some ss →
      processTags v = Except.ok (Json.str (joinSep ", " ss))) ∧
    (∀ s, v = Json.str s → processTags v = Except.ok (Json.str s)) ∧
    (v = Json.null → processTags v = Except.ok (Json.str "")) ∧
    (isArrJ v = false → v ≠ Json.null → processTags v = Except.ok v) ∧
    (∀ r, processTags v = Except.ok r → isArrJ r = false) := by
  refine ⟨?_, ?_, ?_, ?_, ?_⟩
  · intro xs ss hv hss
    subst hv
    simp [processTags, hss]
  · intro s hv
    subst hv
    simp [processTags]
  · intro hv
    subst hv
    simp [processTags]
  · intro hArr hNull
    cases v <;> simp_all [processTags, isArrJ]
  · intro r hr
    cases v with
    | null =>
      simp only [processTags] at hr
      injection hr with h2
      subst h2
      rfl
    | bool b =>
      simp only [processTags] at hr
      injection hr with h2
      subst h2
      rfl
    | num n =>
      simp only [processTags] at hr
      injection hr with h2
      subst h2
      rfl
    | str s =>
      simp only [processTags] at hr
      injection hr with h2
      subst h2
      rfl
    | obj kvs =>
      simp only [processTags] at hr
      injection hr with h2
      subst h2
      rfl
    | arr xs =>
      simp only [processTags] at hr
      cases hss : allStrings xs with
      | none => rw [hss] at hr; exact absurd hr (by simp)
      | some ss => rw [hss] at hr; injection hr with h2; subst h2; rfl

/-- C5 (witness): the tag list python, data joins to the single string
python, data separated by comma-space. -/
theorem tags_normalization_witness :
    processTags (Json.arr [Json.str "python", Json.str "data"])
      = Except.ok (Json.str "python, data") :=
  (tags_normalization (Json.arr [Json.str "python", Json.str "data"])).1
    [Json.str "python", Json.str "data"] ["python", "data"] rfl rfl

/-- C5 (counterexample): a record with the numeric tags value 42 produces a
Document whose tags metadata is the number 42 unchanged, which is a scalar
but not a string, refuting the claim that the value is a scalar string in
all cases. -/
theorem numeric_tags_pass_through :
    processTags (Json.num 42) = Except.ok (Json.num 42) ∧
    isStrJ (Json.num 42) = false ∧
    buildDoc (Json.obj [("content", Json.str "hi"), ("tags", Json.num 42)])
      = RecResult.doc (Doc.mk "hi"
          [("url", Json.str ""), ("topic_title", Json.str ""), ("post_id", Json.str ""),
           ("post_number", Json.str ""), ("author", Json.str ""), ("created_at", Json.str ""),
           ("source_type", Json.str "discourse_post"), ("tags", Json.num 42)]) ∧
    jLookup [("url", Json.str ""), ("topic_title", Json.str ""), ("post_id", Json.str ""),
           ("post_number", Json.str ""), ("author", Json.str ""), ("created_at", Json.str ""),
           ("source_type", Json.str "discourse_post"), ("tags", Json.num 42)] "tags"
      = some (Json.num 42) :=
  ⟨rfl, rfl, rfl, rfl⟩

/-- C7 (amended): the display title of a link is resolved by priority over
present-and-non-empty metadata values: title, else topic_title, else the
text field, else the url, else the no-title literal; in particular a
segment with title absent, topic_title Intro to X and url http://x yields
the link title Intro to X. -/
theorem title_chain_nonempty (md : NodeMeta) :
    nodeTitle md = specTitleNonempty md ∧
    extractLinks [[("topic_title", "Intro to X"), ("url", "http://x")]]
      = [SourceLink.mk "http://x" "Intro to X"] := by
  refine ⟨?_, rfl⟩
  unfold nodeTitle specTitleNonempty truthyGet pyOrS
  cases sLookup md "title" <;> cases sLookup md "topic_title" <;>
    cases sLookup md "text" <;> cases sLookup md "url" <;>
    simp <;> split_ifs <;> simp_all

/-- C7 (counterexample): a segment whose title metadata is present but
empty falls through to topic_title: the presence-based chain of the claim would
give the empty title, but the code produces Intro to X. -/
theorem empty_title_falls_through :
    sLookup [("title", ""), ("topic_title", "Intro to X"), ("url", "http://x")] "title"
      = some "" ∧
    specTitlePresence [("title", ""), ("topic_title", "Intro to X"), ("url", "http://x")]
      = "" ∧
    extractLinks [[("title", ""), ("topic_title", "Intro to X"), ("url", "http://x")]]
      = [SourceLink.mk "http://x" "Intro to X"] ∧
    ("" : String) ≠ "Intro to X" :=
  ⟨rfl, rfl, rfl, by decide⟩

theorem fallbackFalseOfProcessed (lines : List String) :
    ∀ n st, st.linesProcessed ≠ 0 → st.isJsonl = true →
      fallbackOf (jsonlLoop lines n st) = false := by
  induction lines with
  | nil =>
    intro n st h1 h2
    simp [jsonlLoop, fallbackOf, h2]
  | cons line rest ih =>
    intro n st h1 h2
    by_cases hb : pyStrip line = ""
    · rw [show jsonlLoop (line :: rest) n st = jsonlLoop rest (n + 1) st from by
        simp [jsonlLoop, hb]]
      exact ih (n + 1) st h1 h2
    · cases hp : jsonLoads line with
      | none =>
        have hcond : ¬(st.linesProcessed = 0 ∧ n = 0) := fun hc => h1 hc.1
        rw [show jsonlLoop (line :: rest) n st = JLOut.aborted st from by
          simp [jsonlLoop, hb, hp, hcond]]
        rfl
      | some data =>
        cases hd : buildDoc data with
        | doc d =>
          rw [show jsonlLoop (line :: rest) n st = jsonlLoop rest (n + 1)
              { st with isJsonl := true, linesProcessed := st.linesProcessed + 1,
                        docs := st.docs ++ [d] } from by
            simp [jsonlLoop, hb, hp, hd]]
          exact ih (n + 1) _ (Nat.succ_ne_zero _) rfl
        | emptySkip =>
          rw [show jsonlLoop (line :: rest) n st = jsonlLoop rest (n + 1)
              { st with isJsonl := true, linesProcessed := st.linesProcessed + 1,
                        logs := st.logs ++ ["warning: empty text content, skipping"] } from by
            simp [jsonlLoop, hb, hp, hd]]
          exact ih (n + 1) _ (Nat.succ_ne_zero _) rfl
        | recError e =>
          rw [show jsonlLoop (line :: rest) n st = jsonlLoop rest (n + 1)
              { st with isJsonl := true, linesProcessed := st.linesProcessed + 1,
                        logs := st.logs ++ ["error processing post: " ++ e] } from by
            simp [jsonlLoop, hb, hp, hd]]
          exact ih (n + 1) _ (Nat.succ_ne_zero _) rfl

theorem fallbackEqAux (lines : List String) :
    ∀ n st, st.isJsonl = false → st.linesProcessed = 0 →
      fallbackOf (jsonlLoop lines n st) =
        ((lines.all fun l => pyStrip l == "") ||
         (decide (n = 0) &&
          match lines with
          | l0 :: _ => (pyStrip l0 != "") && (jsonLoads l0).isNone
          | [] => false)) := by
  induction lines with
  | nil =>
    intro n st h1 h2
    simp [jsonlLoop, fallbackOf, h1]
  | cons line rest ih =>
    intro n st h1 h2
    by_cases hb : pyStrip line = ""
    · rw [show jsonlLoop (line :: rest) n st = jsonlLoop rest (n + 1) st from by
        simp [jsonlLoop, hb]]
      rw [ih (n + 1) st h1 h2]
      simp [hb]
    · cases hp : jsonLoads line with
      | none =>
        by_cases hn : n = 0
        · rw [show jsonlLoop (line :: rest) n st = JLOut.toArray { st with isJsonl := false } from by
            simp [jsonlLoop, hb, hp, h2, hn]]
          simp [fallbackOf, hb, hp, hn]
        · have hcond : ¬(st.linesProcessed = 0 ∧ n = 0) := fun hc => hn hc.2
          rw [show jsonlLoop (line :: rest) n st = JLOut.aborted st from by
            simp [jsonlLoop, hb, hp, hcond]]
          simp [fallbackOf, hb, hn]
      | some data =>
        have key : fallbackOf (jsonlLoop (line :: rest) n st) = false := by
          cases hd : buildDoc data with
          | doc d =>
            rw [show jsonlLoop (line :: rest) n st = jsonlLoop rest (n + 1)
                { st with isJsonl := true, linesProcessed := st.linesProcessed + 1,
                          docs := st.docs ++ [d] } from by
              simp [jsonlLoop, hb, hp, hd]]
            exact fallbackFalseOfProcessed rest (n + 1) _ (Nat.succ_ne_zero _) rfl
          | emptySkip =>
            rw [show jsonlLoop (line :: rest) n st = jsonlLoop rest (n + 1)
                { st with isJsonl := true, linesProcessed := st.linesProcessed + 1,
                          logs := st.logs ++ ["warning: empty text content, skipping"] } from by
              simp [jsonlLoop, hb, hp, hd]]
            exact fallbackFalseOfProcessed rest (n + 1) _ (Nat.succ_ne_zero _) rfl
          | recError e =>
            rw [show jsonlLoop (line :: rest) n st = jsonlLoop rest (n + 1)
                { st with isJsonl := true, linesProcessed := st.linesProcessed + 1,
                          logs := st.logs ++ ["error processing post: " ++ e] } from by
              simp [jsonlLoop, hb, hp, hd]]
            exact fallbackFalseOfProcessed rest (n + 1) _ (Nat.succ_ne_zero _) rfl
        rw [key]
        simp [hb, hp]

/-- C3 (amended): the normalizer attempts line-delimited parsing first and
reaches the whole-file JSON-array fallback exactly when the file has no
non-blank line at all, or when its very first line (blank or not, it must
be line number zero) is non-blank and fails to parse as JSON.  When the
first non-blank line is a later line and fails to parse, the error is
re-raised and the file is skipped without the fallback. -/
theorem fallback_condition_exact (content : String) :
    triesArrayFallback content = specFallback content := by
  have h := fallbackEqAux (pySplitlines content) 0 (LoopSt.mk [] [] 0 false) rfl rfl
  rw [triesArrayFallback, h, specFallback]
  simp

/-- C3 (counterexample): a file whose first line is blank and whose first
non-blank line is not valid JSON does not reach the array fallback: the
parse failure is re-raised and the file is skipped, refuting the claim that
the fallback happens exactly when the first non-empty line fails to
parse. -/
theorem blank_first_line_no_fallback :
    pySplitlines "\nnotjson" = ["", "notjson"] ∧
    pyStrip "notjson" ≠ "" ∧
    jsonLoads "notjson" = none ∧
    triesArrayFallback "\nnotjson" = false ∧
    (processDiscourseFile "\nnotjson").logs
      = ["error parsing file as JSON or JSON Lines"] :=
  ⟨rfl, by decide, rfl, rfl, rfl⟩

theorem buildDocTextNonempty : ∀ data d, buildDoc data = RecResult.doc d → pyStrip d.text ≠ "" := by
  intro data d h
  cases data with
  | null => simp [buildDoc] at h
  | bool b => simp [buildDoc] at h
  | num n => simp [buildDoc] at h
  | str s => simp [buildDoc] at h
  | arr xs => simp [buildDoc] at h
  | obj kvs =>
    simp only [buildDoc] at h
    cases hp : processTags (jGet kvs "tags") with
    | error e => rw [hp] at h; simp at h
    | ok pt =>
      rw [hp] at h
      cases ht : resolveText kvs with
      | null => rw [ht] at h; simp at h
      | bool b => rw [ht] at h; simp at h
      | num n => rw [ht] at h; simp at h
      | arr xs => rw [ht] at h; simp at h
      | obj kvs2 => rw [ht] at h; simp at h
      | str s =>
        rw [ht] at h
        by_cases hs : pyStrip s = ""
        · simp [hs] at h
        · simp [hs] at h
          subst h
          simpa using hs

theorem jsonlLoopDocsGood (lines : List String) :
    ∀ n st, (∀ d ∈ st.docs, pyStrip d.text ≠ "") →
      ∀ d ∈ (jsonlLoop lines n st).state.docs, pyStrip d.text ≠ "" := by
  induction lines with
  | nil =>
    intro n st hst
    simpa [jsonlLoop, JLOut.state] using hst
  | cons line rest ih =>
    intro n st hst
    by_cases hb : pyStrip line = ""
    · rw [show jsonlLoop (line :: rest) n st = jsonlLoop rest (n + 1) st from by
        simp [jsonlLoop, hb]]
      exact ih (n + 1) st hst
    · cases hp : jsonLoads line with
      | none =>
        by_cases hcond : st.linesProcessed = 0 ∧ n = 0
        · rw [show jsonlLoop (line :: rest) n st = JLOut.toArray { st with isJsonl := false } from by
            simp [jsonlLoop, hb, hp, hcond]]
          simpa [JLOut.state] using hst
        · rw [show jsonlLoop (line :: rest) n st = JLOut.aborted st from by
            simp [jsonlLoop, hb, hp, hcond]]
          simpa [JLOut.state] using hst
      | some data =>
        cases hd : buildDoc data with
        | doc d0 =>
          rw [show jsonlLoop (line :: rest) n st = jsonlLoop rest (n + 1)
              { st with isJsonl := true, linesProcessed := st.linesProcessed + 1,
                        docs := st.docs ++ [d0] } from by
            simp [jsonlLoop, hb, hp, hd]]
          apply ih
          intro d hd2
          rcases List.mem_append.mp hd2 with h2 | h2
          · exact hst d h2
          · rw [List.mem_singleton.mp h2]
            exact buildDocTextNonempty data d0 hd
        | emptySkip =>
          rw [show jsonlLoop (line :: rest) n st = jsonlLoop rest (n + 1)
              { st with isJsonl := true, linesProcessed := st.linesProcessed + 1,
                        logs := st.logs ++ ["warning: empty text content, skipping"] } from by
            simp [jsonlLoop, hb, hp, hd]]
          exact ih (n + 1) _ (by simpa using hst)
        | recError e =>
          rw [show jsonlLoop (line :: rest) n st = jsonlLoop rest (n + 1)
              { st with isJsonl := true, linesProcessed := st.linesProcessed + 1,
                        logs := st.logs ++ ["error processing post: " ++ e] } from by
            simp [jsonlLoop, hb, hp, hd]]
          exact ih (n + 1) _ (by simpa using hst)

theorem arrayLoopDocsGood (items : List Json) :
    ∀ st, (∀ d ∈ st.docs, pyStrip d.text ≠ "") →
      ∀ d ∈ (arrayLoop items st).docs, pyStrip d.text ≠ "" := by
  induction items with
  | nil =>
    intro st hst
    simpa [arrayLoop] using hst
  | cons item rest ih =>
    intro st hst
    cases hd : buildDoc item with
    | doc d0 =>
      rw [show arrayLoop (item :: rest) st = arrayLoop rest { st with docs := st.docs ++ [d0] } from by
        simp [arrayLoop, hd]]
      apply ih
      intro d h2
      rcases List.mem_append.mp h2 with h3 | h3
      · exact hst d h3
      · rw [List.mem_singleton.mp h3]
        exact buildDocTextNonempty item d0 hd
    | emptySkip =>
      rw [show arrayLoop (item :: rest) st
          = arrayLoop rest { st with logs := st.logs ++ ["warning: empty text content, skipping"] } from by
        simp [arrayLoop, hd]]
      exact ih _ (by simpa using hst)
    | recError e =>
      rw [show arrayLoop (item :: rest) st
          = { st with logs := st.logs ++ ["error processing file: " ++ e] } from by
        simp [arrayLoop, hd]]
      simpa using hst

theorem arrayBranchDocsGood (content : String) (st : LoopSt)
    (hst : ∀ d ∈ st.docs, pyStrip d.text ≠ "") :
    ∀ d ∈ (arrayBranch content st).docs, pyStrip d.text ≠ "" := by
  unfold arrayBranch
  cases hp : jsonLoads content with
  | none => simpa using hst
  | some v =>
    cases v with
    | arr items => exact arrayLoopDocsGood items st hst
    | null => simpa using hst
    | bool b => simpa using hst
    | num n => simpa using hst
    | str s => simpa using hst
    | obj kvs => simpa using hst

/-- C6: every Document produced by the discussion-post normalizer has
non-empty text after stripping; a record whose resolved text is empty or
whitespace-only never contributes a Document, in both the JSONL branch and
the array-fallback branch.  (Course-content files go through an external
directory reader and are outside this model.) -/
theorem docs_have_nonempty_text (content : String) :
    ∀ d ∈ (processDiscourseFile content).docs, pyStrip d.text ≠ "" := by
  unfold processDiscourseFile
  cases hJ : jsonlLoop (pySplitlines content) 0 (LoopSt.mk [] [] 0 false) with
  | done st =>
    have hst : ∀ d ∈ st.docs, pyStrip d.text ≠ "" := by
      have h2 := jsonlLoopDocsGood (pySplitlines content) 0 (LoopSt.mk [] [] 0 false) (by simp)
      rw [hJ] at h2
      simpa [JLOut.state] using h2
    by_cases hb : st.isJsonl
    · simpa [hb] using hst
    · simp only [hb, if_false]
      exact arrayBranchDocsGood content st hst
  | toArray st =>
    have hst : ∀ d ∈ st.docs, pyStrip d.text ≠ "" := by
      have h2 := jsonlLoopDocsGood (pySplitlines content) 0 (LoopSt.mk [] [] 0 false) (by simp)
      rw [hJ] at h2
      simpa [JLOut.state] using h2
    exact arrayBranchDocsGood content st hst
  | aborted st =>
    have hst : ∀ d ∈ st.docs, pyStrip d.text ≠ "" := by
      have h2 := jsonlLoopDocsGood (pySplitlines content) 0 (LoopSt.mk [] [] 0 false) (by simp)
      rw [hJ] at h2
      simpa [JLOut.state] using h2
    simpa using hst

/-- C6 (witness): the single Document loaded from a one-record JSONL file
has non-empty stripped text. -/
theorem docs_have_nonempty_text_witness :
    pyStrip (Doc.mk "hi"
      [("url", Json.str ""), ("topic_title", Json.str ""), ("post_id", Json.str ""),
       ("post_number", Json.str ""), ("author", Json.str ""), ("created_at", Json.str ""),
       ("source_type", Json.str "discourse_post"), ("tags", Json.str "")]).text ≠ "" := by
  apply docs_have_nonempty_text "\x7b\"content\": \"hi\"\x7d"
  have h : (processDiscourseFile "\x7b\"content\": \"hi\"\x7d").docs
      = [Doc.mk "hi"
          [("url", Json.str ""), ("topic_title", Json.str ""), ("post_id", Json.str ""),
           ("post_number", Json.str ""), ("author", Json.str ""), ("created_at", Json.str ""),
           ("source_type", Json.str "discourse_post"), ("tags", Json.str "")]] := rfl
  rw [h]
  exact List.mem_singleton.mpr rfl
